import Mathlib

/-!
Shallow embedding of the OKLCH palette generator (`src/utils/color.js`, reproduced
in `src/unnamed/part_000`, and its consumer `src/components/PaletteRow.jsx`).

Numbers are modelled as rationals (`ℚ`).  The external color library `culori`
supplies `wcagContrast`; since the repository treats it as an opaque external
collaborator, every definition below is parameterised over an arbitrary
function `wcagContrast : ℚ → ℚ → ℚ → String → ℚ` giving the contrast of the
OKLCH color `(l, c, h)` against a reference color string.
-/

/-- JS `parseFloat(x.toFixed(3))`: round to 3 decimal places.  ECMA `toFixed`
picks the integer `n` minimising `|n / 10^3 - x|`, the larger one on ties,
which is `⌊1000 x + 1/2⌋`. -/
def round3 (x : ℚ) : ℚ := (⌊x * 1000 + 1/2⌋ : ℚ) / 1000

/-- The `STEP_NAMES` constant of `src/utils/color.js`. -/
def STEP_NAMES : List String :=
  ["100", "99", "98", "95", "90", "80", "70", "60", "50", "40",
   "35", "30", "25", "20", "15", "10", "5", "0"]

/-- `export const oklch = (l, c, h) => ...`: render an OKLCH triple to a CSS
color string. -/
def oklch (l c h : ℚ) : String :=
  "oklch(" ++ toString l ++ " " ++ toString c ++ " " ++ toString h ++ ")"

/-- The divisor `steps - 1` of the default lightness formula, as the code
computes it (in JS number arithmetic, hence over `ℚ`, not `ℕ` subtraction). -/
def lightnessDivisor (steps : ℕ) : ℚ := (steps : ℚ) - 1

/-- The default lightness formula of `generatePalette`:
`const t = i / (steps - 1); currentL = 0.97 - (t * 0.9)`. -/
def defaultLightness (steps i : ℕ) : ℚ :=
  0.97 - ((i : ℚ) / lightnessDivisor steps) * 0.9

/-- The loop body of `adjustLightnessForContrast` (binary search on lightness).
`wc` is the contrast of a probe lightness (chroma, hue and reference color are
already applied).  `bestL`/`minDiff` model the JS variables, with `none`
standing for `null` / `Infinity`; `fuel` counts the remaining iterations of
`for (let i = 0; i < 20; i++)`. -/
def solveAux (wc : ℚ → ℚ) (targetContrast : ℚ) :
    ℕ → ℚ → ℚ → Option ℚ → Option ℚ → Option ℚ
  | 0, _, _, bestL, _ => bestL
  | fuel + 1, mn, mx, bestL, minDiff =>
    let mid := (mn + mx) / 2
    let currentContrast := wc mid
    let diff := |currentContrast - targetContrast|
    -- JS `if (diff < minDiff) { minDiff = diff; bestL = mid; }`, with the
    -- initial `minDiff = Infinity` modelled by `none`
    let upd : Option ℚ × Option ℚ :=
      match minDiff with
      | none => (some mid, some diff)
      | some d => if diff < d then (some mid, some diff) else (bestL, minDiff)
    if |currentContrast - targetContrast| < 0.05 then
      some mid
    else if currentContrast < targetContrast then
      solveAux wc targetContrast fuel mn mid upd.1 upd.2
    else
      solveAux wc targetContrast fuel mid mx upd.1 upd.2

/-- `export const adjustLightnessForContrast = (c, h, targetContrast,
referenceColor = '#ffffff') => ...`: binary search for the lightness achieving
`targetContrast`, 20 iterations, starting from `min = 0`, `max = 1`,
`bestL = null`, `minDiff = Infinity`. -/
def adjustLightnessForContrast (wcagContrast : ℚ → ℚ → ℚ → String → ℚ)
    (c h targetContrast : ℚ) (referenceColor : String) : Option ℚ :=
  solveAux (fun mid => wcagContrast mid c h referenceColor) targetContrast
    20 0 1 none none

/-- The sequence of probe points `mid` evaluated by `solveAux` (stopping after
the probe that first hits the tolerance, as the code returns there). -/
def probesAux (wc : ℚ → ℚ) (targetContrast : ℚ) : ℕ → ℚ → ℚ → List ℚ
  | 0, _, _ => []
  | fuel + 1, mn, mx =>
    let mid := (mn + mx) / 2
    let currentContrast := wc mid
    if |currentContrast - targetContrast| < 0.05 then [mid]
    else if currentContrast < targetContrast then
      mid :: probesAux wc targetContrast fuel mn mid
    else
      mid :: probesAux wc targetContrast fuel mid mx

/-- All probe points evaluated by one call of `adjustLightnessForContrast`. -/
def solverProbes (wcagContrast : ℚ → ℚ → ℚ → String → ℚ)
    (c h targetContrast : ℚ) (referenceColor : String) : List ℚ :=
  probesAux (fun mid => wcagContrast mid c h referenceColor) targetContrast
    20 0 1

/-- One output step of `generatePalette` (the object literal pushed on
`palette`): fields `id, stepName, l, c, h, css, contrastTarget,
isContrastForced`, in source order. -/
structure ColorStep where
  id : String
  stepName : String
  l : ℚ
  c : ℚ
  h : ℚ
  css : String
  contrastTarget : Option ℚ
  isContrastForced : Bool
deriving DecidableEq, Repr

/-- The body of the `for` loop of `generatePalette` for index `i`.
`contrastTargets` maps a step index to its target (`none` for an absent or
`null` entry).  The JS guard `if (contrastTargets[i])` is a truthiness test:
an entry holding the number `0` is falsy and takes the default branch. -/
def mkStep (wcagContrast : ℚ → ℚ → ℚ → String → ℚ) (id : String) (c h : ℚ)
    (steps : ℕ) (contrastTargets : ℕ → Option ℚ) (i : ℕ) : ColorStep :=
  let chosen : ℚ × Bool :=
    match contrastTargets i with
    | some target =>
      if target = 0 then (defaultLightness steps i, false)
      else
        match adjustLightnessForContrast wcagContrast c h target "#ffffff" with
        | some adjustedL => (adjustedL, true)
        | none => (defaultLightness steps i, false)
    | none => (defaultLightness steps i, false)
  { id := id ++ "-" ++ toString i
    stepName := STEP_NAMES.getD i (toString i)
    l := round3 chosen.1
    c := c
    h := h
    css := oklch chosen.1 c h
    contrastTarget := contrastTargets i
    isContrastForced := chosen.2 }

/-- `export const generatePalette = (id, l, c, h, steps = 18, contrastTargets
= {}) => ...`: the loop `for (let i = 0; i < steps; i++) palette.push({...})`.
The base lightness `l` is accepted but never read by the body. -/
def generatePalette (wcagContrast : ℚ → ℚ → ℚ → String → ℚ) (id : String)
    (l c h : ℚ) (steps : ℕ) (contrastTargets : ℕ → Option ℚ) :
    List ColorStep :=
  (List.range steps).map (mkStep wcagContrast id c h steps contrastTargets)

/-- A JavaScript value, as far as the step objects need. -/
inductive JSValue where
  | str (s : String)
  | num (q : ℚ)
  | nul
  | bool (b : Bool)
deriving DecidableEq, Repr

/-- The object literal pushed by `generatePalette` (lines 271–280 of
`src/utils/color.js`), as its key/value pairs in source order.  These eight
keys are all the fields a generated step carries. -/
def ColorStep.toObject (s : ColorStep) : List (String × JSValue) :=
  [("id", .str s.id), ("stepName", .str s.stepName), ("l", .num s.l),
   ("c", .num s.c), ("h", .num s.h), ("css", .str s.css),
   ("contrastTarget", match s.contrastTarget with
                      | some v => .num v
                      | none => .nul),
   ("isContrastForced", .bool s.isContrastForced)]

/-- JS property read `o[k]` on an object modelled as a key/value list:
`none` models `undefined`. -/
def jsGet (o : List (String × JSValue)) (k : String) : Option JSValue :=
  (o.find? (fun p => p.1 = k)).map (fun p => p.2)

/-! ### Helper lemmas -/

lemma generatePalette_getElem? (wc : ℚ → ℚ → ℚ → String → ℚ) (id : String)
    (l c h : ℚ) (n : ℕ) (ct : ℕ → Option ℚ) (i : ℕ) :
    (generatePalette wc id l c h n ct)[i]? =
      if i < n then some (mkStep wc id c h n ct i) else none := by
  by_cases hi : i < n
  · rw [if_pos hi]
    simp only [generatePalette, List.getElem?_map, List.getElem?_range hi]
    rfl
  · rw [if_neg hi]
    have hlen : (List.range n).length ≤ i := by simpa using hi
    simp only [generatePalette, List.getElem?_map, List.getElem?_eq_none hlen]
    rfl

lemma generatePalette_length (wc : ℚ → ℚ → ℚ → String → ℚ) (id : String)
    (l c h : ℚ) (n : ℕ) (ct : ℕ → Option ℚ) :
    (generatePalette wc id l c h n ct).length = n := by
  simp [generatePalette]

lemma round3_sub_abs (x : ℚ) : |round3 x - x| ≤ 1 / 2000 := by
  have h1 : (⌊x * 1000 + 1/2⌋ : ℚ) ≤ x * 1000 + 1/2 := Int.floor_le _
  have h2 : x * 1000 + 1/2 - 1 < (⌊x * 1000 + 1/2⌋ : ℚ) := Int.sub_one_lt_floor _
  rw [abs_le]
  unfold round3
  constructor <;> linarith

lemma round3_mono {x y : ℚ} (hxy : x ≤ y) : round3 x ≤ round3 y := by
  have h : (⌊x * 1000 + 1/2⌋ : ℤ) ≤ ⌊y * 1000 + 1/2⌋ :=
    Int.floor_le_floor (by linarith)
  have h2 : ((⌊x * 1000 + 1/2⌋ : ℤ) : ℚ) ≤ ((⌊y * 1000 + 1/2⌋ : ℤ) : ℚ) := by
    exact_mod_cast h
  unfold round3
  linarith

lemma defaultLightness_strict_anti {n i j : ℕ} (hij : i < j) (hj : j < n) :
    defaultLightness n j < defaultLightness n i := by
  unfold defaultLightness lightnessDivisor
  have hn2 : 2 ≤ n := by omega
  have hn2q : (2 : ℚ) ≤ (n : ℚ) := by exact_mod_cast hn2
  have hpos : (0 : ℚ) < (n : ℚ) - 1 := by linarith
  have hijq : (i : ℚ) < (j : ℚ) := by exact_mod_cast hij
  have hdiv : (i : ℚ) / ((n : ℚ) - 1) < (j : ℚ) / ((n : ℚ) - 1) :=
    div_lt_div_of_pos_right hijq hpos
  linarith

lemma solveAux_exists (wc : ℚ → ℚ) (t : ℚ) :
    ∀ (fuel : ℕ) (mn mx : ℚ) (b d : Option ℚ),
      0 ≤ mn → mx ≤ 1 → mn ≤ mx →
      (∀ x, b = some x → 0 ≤ x ∧ x ≤ 1) →
      (b = none → d = none) →
      (b = none → fuel ≠ 0) →
      ∃ lres, solveAux wc t fuel mn mx b d = some lres ∧ 0 ≤ lres ∧ lres ≤ 1 := by
  intro fuel
  induction fuel with
  | zero =>
    intro mn mx b d _ _ _ hb _ hfuel
    cases b with
    | none => exact absurd rfl (hfuel rfl)
    | some x => exact ⟨x, rfl, hb x rfl⟩
  | succ k ih =>
    intro mn mx b d h0 h1 hle hb hbd _
    have hm0 : 0 ≤ (mn + mx) / 2 := by linarith
    have hm1 : (mn + mx) / 2 ≤ 1 := by linarith
    have hmnm : mn ≤ (mn + mx) / 2 := by linarith
    have hmmx : (mn + mx) / 2 ≤ mx := by linarith
    cases d with
    | none =>
      simp only [solveAux]
      split_ifs with htol hcmp
      · exact ⟨(mn + mx) / 2, rfl, hm0, hm1⟩
      · refine ih mn ((mn + mx) / 2) _ _ h0 hm1 hmnm ?_ ?_ ?_
        · intro x hx
          cases hx
          exact ⟨hm0, hm1⟩
        · intro hx; cases hx
        · intro hx; cases hx
      · refine ih ((mn + mx) / 2) mx _ _ hm0 h1 hmmx ?_ ?_ ?_
        · intro x hx
          cases hx
          exact ⟨hm0, hm1⟩
        · intro hx; cases hx
        · intro hx; cases hx
    | some dv =>
      obtain ⟨x, hx⟩ : ∃ y, b = some y := by
        cases b with
        | none => simpa using hbd rfl
        | some y => exact ⟨y, rfl⟩
      subst hx
      simp only [solveAux]
      split_ifs with htol hcmp hdlt hdlt
      · exact ⟨(mn + mx) / 2, rfl, hm0, hm1⟩
      · refine ih mn ((mn + mx) / 2) _ _ h0 hm1 hmnm ?_ ?_ ?_
        · intro z hz
          cases hz
          exact ⟨hm0, hm1⟩
        · intro hz; cases hz
        · intro hz; cases hz
      · refine ih mn ((mn + mx) / 2) _ _ h0 hm1 hmnm ?_ ?_ ?_
        · intro z hz
          cases hz
          exact hb x rfl
        · intro hz; cases hz
        · intro hz; cases hz
      · refine ih ((mn + mx) / 2) mx _ _ hm0 h1 hmmx ?_ ?_ ?_
        · intro z hz
          cases hz
          exact ⟨hm0, hm1⟩
        · intro hz; cases hz
        · intro hz; cases hz
      · refine ih ((mn + mx) / 2) mx _ _ hm0 h1 hmmx ?_ ?_ ?_
        · intro z hz
          cases hz
          exact hb x rfl
        · intro hz; cases hz
        · intro hz; cases hz

/-- `adjustLightnessForContrast` always returns a lightness in `[0, 1]`. -/
lemma adjustLightnessForContrast_exists (wcagContrast : ℚ → ℚ → ℚ → String → ℚ)
    (c h targetContrast : ℚ) (referenceColor : String) :
    ∃ lres, adjustLightnessForContrast wcagContrast c h targetContrast
        referenceColor = some lres ∧ 0 ≤ lres ∧ lres ≤ 1 := by
  refine solveAux_exists _ _ 20 0 1 none none (le_refl 0) (le_refl 1)
    (by norm_num) ?_ (fun _ => rfl) (fun _ => by norm_num)
  intro x hx
  cases hx

lemma solveAux_argmin (wc : ℚ → ℚ) (t : ℚ) :
    ∀ (fuel : ℕ) (mn mx : ℚ) (b : Option ℚ) (lres : ℚ),
      solveAux wc t fuel mn mx b (Option.map (fun x => |wc x - t|) b) =
        some lres →
      (|wc lres - t| < 0.05 ∧ lres ∈ probesAux wc t fuel mn mx) ∨
      ((b = some lres ∨ lres ∈ probesAux wc t fuel mn mx) ∧
       (∀ p ∈ probesAux wc t fuel mn mx, |wc lres - t| ≤ |wc p - t|) ∧
       (∀ x, b = some x → |wc lres - t| ≤ |wc x - t|)) := by
  intro fuel
  induction fuel with
  | zero =>
    intro mn mx b lres hres
    have hb : b = some lres := hres
    right
    refine ⟨Or.inl hb, ?_, ?_⟩
    · intro p hp
      simp [probesAux] at hp
    · intro x hx
      rw [hb] at hx
      cases hx
      exact le_refl _
  | succ k ih =>
    intro mn mx b lres hres
    cases b with
    | none =>
      simp only [solveAux] at hres
      split_ifs at hres with htol hcmp
      · cases hres
        exact Or.inl ⟨htol, by simp [probesAux, htol]⟩
      · have H := ih mn ((mn + mx) / 2) (some ((mn + mx) / 2)) lres hres
        have hpr : probesAux wc t (k + 1) mn mx =
            (mn + mx) / 2 :: probesAux wc t k mn ((mn + mx) / 2) := by
          simp only [probesAux]
          rw [if_neg htol, if_pos hcmp]
        rw [hpr]
        rcases H with ⟨hlt, hm⟩ | ⟨hor, hall, hbest⟩
        · exact Or.inl ⟨hlt, List.mem_cons_of_mem _ hm⟩
        · right
          refine ⟨?_, ?_, ?_⟩
          · rcases hor with hor | hor
            · cases hor
              exact Or.inr (List.mem_cons_self _ _)
            · exact Or.inr (List.mem_cons_of_mem _ hor)
          · intro p hp
            rcases List.mem_cons.mp hp with hp | hp
            · subst hp
              exact hbest _ rfl
            · exact hall p hp
          · intro x hx
            cases hx
      · have H := ih ((mn + mx) / 2) mx (some ((mn + mx) / 2)) lres hres
        have hpr : probesAux wc t (k + 1) mn mx =
            (mn + mx) / 2 :: probesAux wc t k ((mn + mx) / 2) mx := by
          simp only [probesAux]
          rw [if_neg htol, if_neg hcmp]
        rw [hpr]
        rcases H with ⟨hlt, hm⟩ | ⟨hor, hall, hbest⟩
        · exact Or.inl ⟨hlt, List.mem_cons_of_mem _ hm⟩
        · right
          refine ⟨?_, ?_, ?_⟩
          · rcases hor with hor | hor
            · cases hor
              exact Or.inr (List.mem_cons_self _ _)
            · exact Or.inr (List.mem_cons_of_mem _ hor)
          · intro p hp
            rcases List.mem_cons.mp hp with hp | hp
            · subst hp
              exact hbest _ rfl
            · exact hall p hp
          · intro x hx
            cases hx
    | some x0 =>
      simp only [solveAux, Option.map] at hres
      by_cases htol : |wc ((mn + mx) / 2) - t| < 0.05
      · rw [if_pos htol] at hres
        cases hres
        exact Or.inl ⟨htol, by simp [probesAux, htol]⟩
      · rw [if_neg htol] at hres
        by_cases hdlt : |wc ((mn + mx) / 2) - t| < |wc x0 - t|
        · rw [if_pos hdlt] at hres
          by_cases hcmp : wc ((mn + mx) / 2) < t
          · rw [if_pos hcmp] at hres
            have H := ih mn ((mn + mx) / 2) (some ((mn + mx) / 2)) lres hres
            have hpr : probesAux wc t (k + 1) mn mx =
                (mn + mx) / 2 :: probesAux wc t k mn ((mn + mx) / 2) := by
              simp only [probesAux]
              rw [if_neg htol, if_pos hcmp]
            rw [hpr]
            rcases H with ⟨hlt, hm⟩ | ⟨hor, hall, hbest⟩
            · exact Or.inl ⟨hlt, List.mem_cons_of_mem _ hm⟩
            · right
              have hmid : |wc lres - t| ≤ |wc ((mn + mx) / 2) - t| :=
                hbest _ rfl
              refine ⟨?_, ?_, ?_⟩
              · rcases hor with hor | hor
                · cases hor
                  exact Or.inr (List.mem_cons_self _ _)
                · exact Or.inr (List.mem_cons_of_mem _ hor)
              · intro p hp
                rcases List.mem_cons.mp hp with hp | hp
                · subst hp
                  exact hmid
                · exact hall p hp
              · intro x hx
                cases hx
                exact le_of_lt (lt_of_le_of_lt hmid hdlt)
          · rw [if_neg hcmp] at hres
            have H := ih ((mn + mx) / 2) mx (some ((mn + mx) / 2)) lres hres
            have hpr : probesAux wc t (k + 1) mn mx =
                (mn + mx) / 2 :: probesAux wc t k ((mn + mx) / 2) mx := by
              simp only [probesAux]
              rw [if_neg htol, if_neg hcmp]
            rw [hpr]
            rcases H with ⟨hlt, hm⟩ | ⟨hor, hall, hbest⟩
            · exact Or.inl ⟨hlt, List.mem_cons_of_mem _ hm⟩
            · right
              have hmid : |wc lres - t| ≤ |wc ((mn + mx) / 2) - t| :=
                hbest _ rfl
              refine ⟨?_, ?_, ?_⟩
              · rcases hor with hor | hor
                · cases hor
                  exact Or.inr (List.mem_cons_self _ _)
                · exact Or.inr (List.mem_cons_of_mem _ hor)
              · intro p hp
                rcases List.mem_cons.mp hp with hp | hp
                · subst hp
                  exact hmid
                · exact hall p hp
              · intro x hx
                cases hx
                exact le_of_lt (lt_of_le_of_lt hmid hdlt)
        · rw [if_neg hdlt] at hres
          have hx0mid : |wc x0 - t| ≤ |wc ((mn + mx) / 2) - t| := not_lt.mp hdlt
          by_cases hcmp : wc ((mn + mx) / 2) < t
          · rw [if_pos hcmp] at hres
            have H := ih mn ((mn + mx) / 2) (some x0) lres hres
            have hpr : probesAux wc t (k + 1) mn mx =
                (mn + mx) / 2 :: probesAux wc t k mn ((mn + mx) / 2) := by
              simp only [probesAux]
              rw [if_neg htol, if_pos hcmp]
            rw [hpr]
            rcases H with ⟨hlt, hm⟩ | ⟨hor, hall, hbest⟩
            · exact Or.inl ⟨hlt, List.mem_cons_of_mem _ hm⟩
            · right
              have hx0 : |wc lres - t| ≤ |wc x0 - t| := hbest _ rfl
              refine ⟨?_, ?_, ?_⟩
              · rcases hor with hor | hor
                · exact Or.inl hor
                · exact Or.inr (List.mem_cons_of_mem _ hor)
              · intro p hp
                rcases List.mem_cons.mp hp with hp | hp
                · subst hp
                  exact le_trans hx0 hx0mid
                · exact hall p hp
              · intro x hx
                cases hx
                exact hx0
          · rw [if_neg hcmp] at hres
            have H := ih ((mn + mx) / 2) mx (some x0) lres hres
            have hpr : probesAux wc t (k + 1) mn mx =
                (mn + mx) / 2 :: probesAux wc t k ((mn + mx) / 2) mx := by
              simp only [probesAux]
              rw [if_neg htol, if_neg hcmp]
            rw [hpr]
            rcases H with ⟨hlt, hm⟩ | ⟨hor, hall, hbest⟩
            · exact Or.inl ⟨hlt, List.mem_cons_of_mem _ hm⟩
            · right
              have hx0 : |wc lres - t| ≤ |wc x0 - t| := hbest _ rfl
              refine ⟨?_, ?_, ?_⟩
              · rcases hor with hor | hor
                · exact Or.inl hor
                · exact Or.inr (List.mem_cons_of_mem _ hor)
              · intro p hp
                rcases List.mem_cons.mp hp with hp | hp
                · subst hp
                  exact le_trans hx0 hx0mid
                · exact hall p hp
              · intro x hx
                cases hx
                exact hx0

/-! ### Claim theorems -/

/-- Claim C3: for `stepCount = n ≥ 2` the output of `generatePalette` has
exactly `n` entries, the entry at position `i` is the step generated for
index `i` (its `id` is `id-i`), and every entry's `c` and `h` fields equal
the input chroma and hue. -/
theorem c3_shape_invariant (wc : ℚ → ℚ → ℚ → String → ℚ) (id : String)
    (l c h : ℚ) (n : ℕ) (ct : ℕ → Option ℚ) (hn : 2 ≤ n) :
    (generatePalette wc id l c h n ct).length = n ∧
    ∀ i, i < n → ∃ s, (generatePalette wc id l c h n ct)[i]? = some s ∧
      s.c = c ∧ s.h = h ∧ s.id = id ++ "-" ++ toString i := by
  refine ⟨generatePalette_length wc id l c h n ct, ?_⟩
  intro i hi
  exact ⟨mkStep wc id c h n ct i,
    by rw [generatePalette_getElem?, if_pos hi], rfl, rfl, rfl⟩

/-- Witness for C3 at `n = 3`. -/
theorem c3_shape_invariant_witness :
    (generatePalette (fun _ _ _ _ => 1) "p" (3/5) (3/20) 260 3
      (fun _ => none)).length = 3 ∧
    ∀ i, i < 3 → ∃ s, (generatePalette (fun _ _ _ _ => 1) "p" (3/5) (3/20) 260 3
      (fun _ => none))[i]? = some s ∧
      s.c = 3/20 ∧ s.h = 260 ∧ s.id = "p" ++ "-" ++ toString i :=
  c3_shape_invariant (fun _ _ _ _ => 1) "p" (3/5) (3/20) 260 3 (fun _ => none)
    (by norm_num)

/-- Claim C4: at every unconstrained index the lightness rendered into the
css string is `0.97 - (i / (n - 1)) * 0.9` and the stored `l` is its
3-decimal rounding; the formula gives `0.97` at index 0, `0.07` at index
`n - 1`, and `0.52` at the middle index for `stepCount = 3`. -/
theorem c4_default_lightness_formula (wc : ℚ → ℚ → ℚ → String → ℚ)
    (id : String) (l c h : ℚ) (n : ℕ) (ct : ℕ → Option ℚ) (hn : 2 ≤ n) :
    (∀ i s, i < n → ct i = none →
      (generatePalette wc id l c h n ct)[i]? = some s →
      s.css = oklch (0.97 - ((i : ℚ) / ((n : ℚ) - 1)) * 0.9) c h ∧
      s.l = round3 (0.97 - ((i : ℚ) / ((n : ℚ) - 1)) * 0.9)) ∧
    0.97 - ((0 : ℚ) / ((n : ℚ) - 1)) * 0.9 = 0.97 ∧
    0.97 - (((n - 1 : ℕ) : ℚ) / ((n : ℚ) - 1)) * 0.9 = 0.07 ∧
    0.97 - ((1 : ℚ) / ((3 : ℚ) - 1)) * 0.9 = 0.52 := by
  refine ⟨?_, by norm_num, ?_, by norm_num⟩
  · intro i s hi hct hs
    rw [generatePalette_getElem?, if_pos hi] at hs
    have hs' : mkStep wc id c h n ct i = s := by injection hs
    subst hs'
    constructor <;> simp [mkStep, hct, defaultLightness, lightnessDivisor]
  · have h1 : ((n - 1 : ℕ) : ℚ) = (n : ℚ) - 1 := by
      have : 1 ≤ n := by omega
      push_cast [this]
      ring
    have h2 : (n : ℚ) - 1 ≠ 0 := by
      have : (2 : ℚ) ≤ (n : ℚ) := by exact_mod_cast hn
      intro h0
      linarith
    rw [h1, div_self h2]
    norm_num

/-- Witness for C4 at `n = 3`, index 1. -/
theorem c4_default_lightness_formula_witness :
    (∀ i s, i < 3 → (fun _ : ℕ => (none : Option ℚ)) i = none →
      (generatePalette (fun _ _ _ _ => 1) "p" (3/5) (3/20) 260 3
        (fun _ => none))[i]? = some s →
      s.css = oklch (0.97 - ((i : ℚ) / ((3 : ℚ) - 1)) * 0.9) (3/20) 260 ∧
      s.l = round3 (0.97 - ((i : ℚ) / ((3 : ℚ) - 1)) * 0.9)) ∧
    0.97 - ((0 : ℚ) / ((3 : ℚ) - 1)) * 0.9 = 0.97 ∧
    0.97 - (((3 - 1 : ℕ) : ℚ) / ((3 : ℚ) - 1)) * 0.9 = 0.07 ∧
    0.97 - ((1 : ℚ) / ((3 : ℚ) - 1)) * 0.9 = 0.52 :=
  c4_default_lightness_formula (fun _ _ _ _ => 1) "p" (3/5) (3/20) 260 3
    (fun _ => none) (by norm_num)

/-- Claim C8: `generatePalette` never reads the base lightness `l`, so its
output is identical for any two base lightness values. -/
theorem c8_base_lightness_independent (wc : ℚ → ℚ → ℚ → String → ℚ)
    (id : String) (l1 l2 c h : ℚ) (n : ℕ) (ct : ℕ → Option ℚ) :
    generatePalette wc id l1 c h n ct = generatePalette wc id l2 c h n ct :=
  rfl

/-- Claim C9: under `stepCount ≥ 2` the divisor `stepCount - 1` of the
default lightness formula is nonzero; at `stepCount = 1` it is zero, yet
`generatePalette` runs unguarded and still emits one step (no validation
error, no clamping). -/
theorem c9_stepcount_guard (wc : ℚ → ℚ → ℚ → String → ℚ) (id : String)
    (l c h : ℚ) (ct : ℕ → Option ℚ) (n : ℕ) (hn : 2 ≤ n) :
    lightnessDivisor n ≠ 0 ∧ lightnessDivisor 1 = 0 ∧
    (generatePalette wc id l c h 1 ct).length = 1 := by
  refine ⟨?_, by norm_num [lightnessDivisor],
    generatePalette_length wc id l c h 1 ct⟩
  unfold lightnessDivisor
  have : (2 : ℚ) ≤ (n : ℚ) := by exact_mod_cast hn
  intro h0
  linarith

/-- Witness for C9 at `n = 3`. -/
theorem c9_stepcount_guard_witness :
    lightnessDivisor 3 ≠ 0 ∧ lightnessDivisor 1 = 0 ∧
    (generatePalette (fun _ _ _ _ => 1) "p" (3/5) (3/20) 260 1
      (fun _ => none)).length = 1 :=
  c9_stepcount_guard (fun _ _ _ _ => 1) "p" (3/5) (3/20) 260 (fun _ => none) 3
    (by norm_num)

/-- Claim C1 (code evaluation): no step produced by `generatePalette`
carries a `hexColor`/`hex` or `contrastValue`/`contrast` property — the
pushed object has only the eight keys of `ColorStep.toObject`, so the
reads `step.hex` and `step.contrast` in `PaletteRow.jsx` yield
`undefined`. -/
theorem c1_steps_lack_hex_and_contrast (wc : ℚ → ℚ → ℚ → String → ℚ)
    (id : String) (l c h : ℚ) (n : ℕ) (ct : ℕ → Option ℚ) (i : ℕ)
    (s : ColorStep) (hs : (generatePalette wc id l c h n ct)[i]? = some s) :
    jsGet s.toObject "hexColor" = none ∧
    jsGet s.toObject "contrastValue" = none ∧
    jsGet s.toObject "hex" = none ∧
    jsGet s.toObject "contrast" = none :=
  ⟨rfl, rfl, rfl, rfl⟩

/-- Witness for C1 at a concrete call. -/
theorem c1_steps_lack_hex_and_contrast_witness :
    jsGet (mkStep (fun _ _ _ _ => 1) "primary" (3/20) 260 3
      (fun _ => none) 0).toObject "hexColor" = none ∧
    jsGet (mkStep (fun _ _ _ _ => 1) "primary" (3/20) 260 3
      (fun _ => none) 0).toObject "contrastValue" = none ∧
    jsGet (mkStep (fun _ _ _ _ => 1) "primary" (3/20) 260 3
      (fun _ => none) 0).toObject "hex" = none ∧
    jsGet (mkStep (fun _ _ _ _ => 1) "primary" (3/20) 260 3
      (fun _ => none) 0).toObject "contrast" = none :=
  c1_steps_lack_hex_and_contrast (fun _ _ _ _ => 1) "primary" (3/5) (3/20)
    260 3 (fun _ => none) 0 _ (by rw [generatePalette_getElem?]; rfl)

/-- Claim C2 counterexample: with the present, non-null target `0` at index
0, the step is NOT contrast-forced and uses the default lightness — JS
truthiness makes `contrastTargets[i] = 0` take the default path, refuting
the claim's "including 0". -/
theorem c2_zero_target_counterexample :
    ∃ s, (generatePalette (fun _ _ _ _ => 9/2) "p" (3/5) (3/20) 260 3
        (fun i => if i = 0 then some 0 else none))[0]? = some s ∧
      (fun i : ℕ => if i = 0 then (some (0 : ℚ)) else none) 0 = some 0 ∧
      s.isContrastForced = false ∧ s.l = (97 / 100 : ℚ) := by
  refine ⟨_, by rw [generatePalette_getElem?]; rfl, rfl, rfl, ?_⟩
  show round3 (defaultLightness 3 0) = (97 / 100 : ℚ)
  norm_num [round3, defaultLightness, lightnessDivisor]

/-- Claim C2 (amended): the solver path is taken exactly when
`contrastTargets[i]` is truthy — present, non-null AND non-zero; then the
step records the solver's lightness and `isContrastForced = true`, while a
missing, null or `0` entry takes the default formula with
`isContrastForced = false`. -/
theorem c2_forced_iff_truthy_target (wc : ℚ → ℚ → ℚ → String → ℚ)
    (id : String) (l c h : ℚ) (n : ℕ) (ct : ℕ → Option ℚ) (i : ℕ)
    (s : ColorStep) (hs : (generatePalette wc id l c h n ct)[i]? = some s) :
    (s.isContrastForced = true ↔ ∃ v, ct i = some v ∧ v ≠ 0) ∧
    (∀ v, ct i = some v → v ≠ 0 →
      ∃ aL, adjustLightnessForContrast wc c h v "#ffffff" = some aL ∧
        s.l = round3 aL ∧ s.css = oklch aL c h) ∧
    ((ct i = none ∨ ct i = some 0) →
      s.isContrastForced = false ∧ s.l = round3 (defaultLightness n i)) := by
  have hi : i < n := by
    by_contra hi
    rw [generatePalette_getElem?, if_neg hi] at hs
    cases hs
  rw [generatePalette_getElem?, if_pos hi] at hs
  have hs' : mkStep wc id c h n ct i = s := by injection hs
  subst hs'
  refine ⟨⟨?_, ?_⟩, ?_, ?_⟩
  · intro hf
    rcases hct : ct i with _ | v
    · simp [mkStep, hct] at hf
    · by_cases hv : v = 0
      · subst hv
        simp [mkStep, hct] at hf
      · exact ⟨v, rfl, hv⟩
  · rintro ⟨v, hct, hv⟩
    obtain ⟨aL, haL, -, -⟩ :=
      adjustLightnessForContrast_exists wc c h v "#ffffff"
    simp [mkStep, hct, hv, haL]
  · intro v hct hv
    obtain ⟨aL, haL, -, -⟩ :=
      adjustLightnessForContrast_exists wc c h v "#ffffff"
    refine ⟨aL, haL, ?_, ?_⟩ <;> simp [mkStep, hct, hv, haL]
  · intro hct0
    rcases hct0 with hct | hct <;>
      constructor <;> simp [mkStep, hct]

/-- Witness for C2 (amended) at a concrete call with target 4.5 at index 0. -/
theorem c2_forced_iff_truthy_target_witness :
    ((mkStep (fun _ _ _ _ => 9/2) "p" (3/20) 260 2
        (fun i => if i = 0 then some (9/2) else none) 0).isContrastForced
          = true ↔
      ∃ v, (fun i : ℕ => if i = 0 then some ((9:ℚ)/2) else none) 0 = some v ∧
        v ≠ 0) ∧
    (∀ v, (fun i : ℕ => if i = 0 then some ((9:ℚ)/2) else none) 0 = some v →
      v ≠ 0 →
      ∃ aL, adjustLightnessForContrast (fun _ _ _ _ => 9/2) (3/20) 260 v
          "#ffffff" = some aL ∧
        (mkStep (fun _ _ _ _ => 9/2) "p" (3/20) 260 2
          (fun i => if i = 0 then some (9/2) else none) 0).l = round3 aL ∧
        (mkStep (fun _ _ _ _ => 9/2) "p" (3/20) 260 2
          (fun i => if i = 0 then some (9/2) else none) 0).css =
          oklch aL (3/20) 260) ∧
    (((fun i : ℕ => if i = 0 then some ((9:ℚ)/2) else none) 0 = none ∨
      (fun i : ℕ => if i = 0 then some ((9:ℚ)/2) else none) 0 = some 0) →
      (mkStep (fun _ _ _ _ => 9/2) "p" (3/20) 260 2
        (fun i => if i = 0 then some (9/2) else none) 0).isContrastForced
          = false ∧
      (mkStep (fun _ _ _ _ => 9/2) "p" (3/20) 260 2
        (fun i => if i = 0 then some (9/2) else none) 0).l =
        round3 (defaultLightness 2 0)) :=
  c2_forced_iff_truthy_target (fun _ _ _ _ => 9/2) "p" (3/5) (3/20) 260 2
    (fun i => if i = 0 then some (9/2) else none) 0 _
    (by rw [generatePalette_getElem?]; rfl)

/-- Claim C5: the solver's returned lightness either achieves a contrast
within the tolerance 0.05 of the target, or is a probe point with the
smallest absolute contrast error among all probes of the 20-iteration
budget. -/
theorem c5_solver_convergence (wc : ℚ → ℚ → ℚ → String → ℚ)
    (c h targetContrast : ℚ) (referenceColor : String) :
    ∃ lres, adjustLightnessForContrast wc c h targetContrast referenceColor =
        some lres ∧
      (|wc lres c h referenceColor - targetContrast| < 0.05 ∨
       (lres ∈ solverProbes wc c h targetContrast referenceColor ∧
        ∀ p ∈ solverProbes wc c h targetContrast referenceColor,
          |wc lres c h referenceColor - targetContrast| ≤
          |wc p c h referenceColor - targetContrast|)) := by
  obtain ⟨lres, hres, -, -⟩ :=
    adjustLightnessForContrast_exists wc c h targetContrast referenceColor
  refine ⟨lres, hres, ?_⟩
  have H := solveAux_argmin (fun mid => wc mid c h referenceColor)
    targetContrast 20 0 1 none lres hres
  rcases H with ⟨hlt, -⟩ | ⟨hor, hall, -⟩
  · exact Or.inl hlt
  · right
    rcases hor with hor | hor
    · cases hor
    · exact ⟨hor, hall⟩

/-- Claim C6: `adjustLightnessForContrast` always returns a (non-null)
lightness in `[0, 1]`, whatever the contrast function, target and reference
color — there is no failure path. -/
theorem c6_solver_always_returns (wc : ℚ → ℚ → ℚ → String → ℚ)
    (c h targetContrast : ℚ) (referenceColor : String) :
    ∃ lres, adjustLightnessForContrast wc c h targetContrast referenceColor =
        some lres ∧ 0 ≤ lres ∧ lres ≤ 1 :=
  adjustLightnessForContrast_exists wc c h targetContrast referenceColor

/-- Claim C7 counterexample: at `stepCount = 902` the stored (3-decimal
rounded) lightness of the unconstrained steps 450 and 451 is the same
`0.52`, so the lightness of the step at the smaller index is not strictly
greater. -/
theorem c7_rounded_lightness_collision :
    ∃ s u, (generatePalette (fun _ _ _ _ => 1) "p" (3/5) (3/20) 260 902
        (fun _ => none))[450]? = some s ∧
      (generatePalette (fun _ _ _ _ => 1) "p" (3/5) (3/20) 260 902
        (fun _ => none))[451]? = some u ∧
      s.l = u.l ∧ s.l = (13/25 : ℚ) := by
  refine ⟨_, _, by rw [generatePalette_getElem?]; rfl,
    by rw [generatePalette_getElem?]; rfl, ?_, ?_⟩
  · show round3 (defaultLightness 902 450) = round3 (defaultLightness 902 451)
    norm_num [round3, defaultLightness, lightnessDivisor]
  · show round3 (defaultLightness 902 450) = (13/25 : ℚ)
    norm_num [round3, defaultLightness, lightnessDivisor]

/-- Claim C7 (amended): over unconstrained indices the full-precision
lightness rendered into the css string is strictly decreasing as the index
increases, and the stored rounded `l` is non-increasing (it can repeat due
to the 3-decimal rounding, as the counterexample shows). -/
theorem c7_lightness_monotonic (wc : ℚ → ℚ → ℚ → String → ℚ) (id : String)
    (l c h : ℚ) (n : ℕ) (ct : ℕ → Option ℚ) (i j : ℕ) (s u : ColorStep)
    (hij : i < j) (hj : j < n) (hcti : ct i = none) (hctj : ct j = none)
    (hs : (generatePalette wc id l c h n ct)[i]? = some s)
    (hu : (generatePalette wc id l c h n ct)[j]? = some u) :
    (∃ Li Lj, s.css = oklch Li c h ∧ u.css = oklch Lj c h ∧ Lj < Li) ∧
    u.l ≤ s.l := by
  have hi : i < n := lt_trans hij hj
  rw [generatePalette_getElem?, if_pos hi] at hs
  rw [generatePalette_getElem?, if_pos hj] at hu
  have hs' : mkStep wc id c h n ct i = s := by injection hs
  have hu' : mkStep wc id c h n ct j = u := by injection hu
  subst hs'
  subst hu'
  have hanti := defaultLightness_strict_anti hij hj
  constructor
  · refine ⟨defaultLightness n i, defaultLightness n j, ?_, ?_, hanti⟩
    · simp [mkStep, hcti]
    · simp [mkStep, hctj]
  · have h1 : (mkStep wc id c h n ct i).l = round3 (defaultLightness n i) := by
      simp [mkStep, hcti]
    have h2 : (mkStep wc id c h n ct j).l = round3 (defaultLightness n j) := by
      simp [mkStep, hctj]
    rw [h1, h2]
    exact round3_mono (le_of_lt hanti)

/-- Witness for C7 (amended) at `n = 3`, indices 0 and 1. -/
theorem c7_lightness_monotonic_witness :
    (∃ Li Lj,
      (mkStep (fun _ _ _ _ => 1) "p" (3/20) 260 3 (fun _ => none) 0).css =
        oklch Li (3/20) 260 ∧
      (mkStep (fun _ _ _ _ => 1) "p" (3/20) 260 3 (fun _ => none) 1).css =
        oklch Lj (3/20) 260 ∧ Lj < Li) ∧
    (mkStep (fun _ _ _ _ => 1) "p" (3/20) 260 3 (fun _ => none) 1).l ≤
      (mkStep (fun _ _ _ _ => 1) "p" (3/20) 260 3 (fun _ => none) 0).l :=
  c7_lightness_monotonic (fun _ _ _ _ => 1) "p" (3/5) (3/20) 260 3
    (fun _ => none) 0 1 _ _ (by norm_num) (by norm_num) rfl rfl
    (by rw [generatePalette_getElem?]; rfl)
    (by rw [generatePalette_getElem?]; rfl)

/-- Claim C10: every step's stored `l` is the 3-decimal rounding of the
full-precision lightness the css string is rendered from, so the two agree
to within `0.0005`; and they can genuinely differ, e.g. at index 1 of the
default 18-step curve. -/
theorem c10_stored_vs_css_lightness (wc : ℚ → ℚ → ℚ → String → ℚ)
    (id : String) (l c h : ℚ) (n : ℕ) (ct : ℕ → Option ℚ) (i : ℕ)
    (s : ColorStep) (hs : (generatePalette wc id l c h n ct)[i]? = some s) :
    (∃ L, s.css = oklch L c h ∧ s.l = round3 L ∧ |s.l - L| ≤ 1/2000) ∧
    (∃ u L1, (generatePalette wc "q" 0 (3/20) 260 18
        (fun _ => none))[1]? = some u ∧
      u.css = oklch L1 (3/20) 260 ∧ u.l ≠ L1) := by
  constructor
  · have hi : i < n := by
      by_contra hi
      rw [generatePalette_getElem?, if_neg hi] at hs
      cases hs
    rw [generatePalette_getElem?, if_pos hi] at hs
    have hs' : mkStep wc id c h n ct i = s := by injection hs
    subst hs'
    rcases hct : ct i with _ | v
    · refine ⟨defaultLightness n i, by simp [mkStep, hct],
        by simp [mkStep, hct], ?_⟩
      have h1 : (mkStep wc id c h n ct i).l =
          round3 (defaultLightness n i) := by
        simp [mkStep, hct]
      rw [h1]
      exact round3_sub_abs _
    · by_cases hv : v = 0
      · subst hv
        refine ⟨defaultLightness n i, by simp [mkStep, hct],
          by simp [mkStep, hct], ?_⟩
        have h1 : (mkStep wc id c h n ct i).l =
            round3 (defaultLightness n i) := by
          simp [mkStep, hct]
        rw [h1]
        exact round3_sub_abs _
      · obtain ⟨aL, haL, -, -⟩ :=
          adjustLightnessForContrast_exists wc c h v "#ffffff"
        refine ⟨aL, by simp [mkStep, hct, hv, haL],
          by simp [mkStep, hct, hv, haL], ?_⟩
        have h1 : (mkStep wc id c h n ct i).l = round3 aL := by
          simp [mkStep, hct, hv, haL]
        rw [h1]
        exact round3_sub_abs _
  · have hL : defaultLightness 18 1 = (1559/1700 : ℚ) := by
      norm_num [defaultLightness, lightnessDivisor]
    refine ⟨_, 1559/1700, by rw [generatePalette_getElem?]; rfl, ?_, ?_⟩
    · show oklch (defaultLightness 18 1) (3/20) 260 =
        oklch (1559/1700) (3/20) 260
      rw [hL]
    · show round3 (defaultLightness 18 1) ≠ (1559/1700 : ℚ)
      rw [hL]
      norm_num [round3]

/-- Witness for C10 at a concrete call (`n = 3`, index 0). -/
theorem c10_stored_vs_css_lightness_witness :
    (∃ L, (mkStep (fun _ _ _ _ => 1) "p" (3/20) 260 3 (fun _ => none) 0).css =
        oklch L (3/20) 260 ∧
      (mkStep (fun _ _ _ _ => 1) "p" (3/20) 260 3 (fun _ => none) 0).l =
        round3 L ∧
      |(mkStep (fun _ _ _ _ => 1) "p" (3/20) 260 3 (fun _ => none) 0).l - L| ≤
        1/2000) ∧
    (∃ u L1, (generatePalette (fun _ _ _ _ => 1) "q" 0 (3/20) 260 18
        (fun _ => none))[1]? = some u ∧
      u.css = oklch L1 (3/20) 260 ∧ u.l ≠ L1) :=
  c10_stored_vs_css_lightness (fun _ _ _ _ => 1) "p" (3/5) (3/20) 260 3
    (fun _ => none) 0 _ (by rw [generatePalette_getElem?]; rfl)
